import Mathlib

/-!
Verification of the Horizon Blender add-on (`horizon.py`) against its
natural-language specification.

The add-on is a thin orchestration layer over the host application's scene
graph.  We shallowly embed the scene state the seven operators read and
mutate: the object list (with selection flags, transform, mesh faces,
material slots, vertex groups, custom properties and modifier stack), the
global material datablock store (`bpy.data.materials`), the active-object
pointer (`context.view_layer.objects.active`) and the four scene
parameters.  Host mutation primitives (`transform.resize`,
`transform_apply`, `material_slot_remove`, `mesh.delete`,
`modifiers.new`, ...) are modelled as pure state transformers with their
documented per-object semantics (geometry over exact rationals,
`transform.resize` acting per selected object); each operator's `execute`
is then a literal translation of the Python.

Material names and the name parameters are modelled as `List Char`, which
matches Python's code-point string semantics (`startswith`, `endswith`,
slicing) exactly.
-/

namespace Horizon

/-- Python strings (sequences of code points). -/
abbrev Name := List Char

/-- Python `s.startswith(p)`. -/
def strStartsWith : Name → Name → Bool
  | _, [] => true
  | [], _ :: _ => false
  | c :: s, d :: p => c == d && strStartsWith s p

/-- Python `s.endswith(p)`: the reversal of `startswith` on reversed strings. -/
def strEndsWith (s p : Name) : Bool :=
  strStartsWith s.reverse p.reverse

/-- Python `s[:-k]`.  For `k = 0` the slice is `s[:0] = ""` (since `-0 == 0`),
not the whole string: this is the classic negative-slice pitfall, and it is
what `horizon.py` line 132 executes when the configured suffix is empty. -/
def pySliceNeg (s : Name) (k : Nat) : Name :=
  if k = 0 then [] else s.take (s.length - k)

/-- Identifier of a material datablock. -/
abbrev MatId := Nat

/-- The global material store `bpy.data.materials`: datablock id with its
current name, in creation order. -/
abbrev MatStore := List (MatId × Name)

/-- Name of the material datablock `m` (empty for a dangling id). -/
def matName (ms : MatStore) (m : MatId) : Name :=
  (ms.lookup m).getD []

/-- Python `bpy.data.materials.get(n)`: the material datablock named `n`,
if any (first match in store order). -/
def matsGetByName (ms : MatStore) (n : Name) : Option MatId :=
  (ms.find? (fun q => q.2 = n)).map Prod.fst

/-- Python `mat.name = n`: rename the datablock `m` in the global store. -/
def renameMat (ms : MatStore) (m : MatId) (n : Name) : MatStore :=
  ms.map (fun q => if q.1 = m then (q.1, n) else q)

/-- One mesh face: its material-slot index and its edit-mode selection flag. -/
structure Face where
  material_index : Nat
  select : Bool
deriving DecidableEq, Inhabited

/-- Modifier kinds (only `TRIANGULATE` matters to this add-on). -/
inductive ModType where
  | TRIANGULATE
  | OTHER (tag : String)
deriving DecidableEq, Inhabited

/-- A stack entry of an object's modifier list. -/
structure Modifier where
  name : String
  type : ModType
  quad_method : String
  ngon_method : String
  keep_custom_normals : Bool
deriving DecidableEq, Inhabited

/-- Python `obj.modifiers.new(name=..., type=...)`: the host creates a
modifier with its default settings (Blender's triangulate defaults shown);
`horizon.py` immediately overwrites the three relevant fields. -/
def modifiersNew (n : String) (t : ModType) : Modifier :=
  { name := n, type := t, quad_method := "SHORTEST_DIAGONAL",
    ngon_method := "BEAUTY", keep_custom_normals := false }

/-- A scene object.  `type` is the host object type (`"MESH"`, ...),
`mode` the interaction mode (`"OBJECT"`, `"EDIT"`, ...).  Geometry is
exact: vertex coordinates and the transform channels are rationals. -/
structure Obj where
  type : String
  selected : Bool
  mode : String
  location : ℚ × ℚ × ℚ
  rotation : ℚ × ℚ × ℚ
  scale : ℚ × ℚ × ℚ
  verts : List (ℚ × ℚ × ℚ)
  faces : List Face
  material_slots : List (Option MatId)
  vertex_groups : List String
  custom_props : List (String × Int)
  modifiers : List Modifier
deriving DecidableEq, Inhabited

/-- Operator status (`{'FINISHED'}` / `{'CANCELLED'}`). -/
inductive Status where
  | FINISHED
  | CANCELLED
deriving DecidableEq, Inhabited

/-- The scene state an operator reads and writes: objects (indexed by
position), the material store, the active-object pointer and the four
`horizon_*` scene parameters. -/
structure Scene where
  objects : List Obj
  materials : MatStore
  active : Option Nat
  horizon_scale_factor : ℚ
  horizon_mat_prefix : Name
  horizon_mat_suffix : Name
  horizon_remove_material : Option MatId
deriving DecidableEq, Inhabited

/-- Result of one `execute` call: the returned status, the scene after the
call, and the list of messages passed to `self.report({'WARNING'}, ...)`. -/
structure OpResult where
  status : Status
  scene : Scene
  reports : List String
deriving DecidableEq, Inhabited

/-- Replace the element at position `i` by `f` of it (no-op out of range). -/
def updAt (f : α → α) : Nat → List α → List α
  | _, [] => []
  | 0, a :: l => f a :: l
  | n + 1, a :: l => a :: updAt f n l

/-- Indices (in order) at which `q` holds, starting the count at `n`:
Python `[i for i, x in enumerate(l) if q(x)]` generalised by the base
offset. -/
def findIdxsAux (q : α → Bool) : List α → Nat → List Nat
  | [], _ => []
  | a :: l, n => if q a then n :: findIdxsAux q l (n + 1) else findIdxsAux q l (n + 1)

/-- Indices at which `q` holds. -/
def findIdxs (q : α → Bool) (l : List α) : List Nat :=
  findIdxsAux q l 0

/-- Indices of `context.selected_objects` (scene order). -/
def selectedIdxs (objs : List Obj) : List Nat :=
  findIdxs (fun o => o.selected) objs

/-- Indices of `[obj for obj in context.selected_objects if obj.type == 'MESH']`. -/
def selectedMeshIdxs (objs : List Obj) : List Nat :=
  findIdxs (fun o => o.selected && o.type == "MESH") objs

/-- Componentwise scaling of a vertex list by a scale triple. -/
def scaleVerts (sc : ℚ × ℚ × ℚ) (vs : List (ℚ × ℚ × ℚ)) : List (ℚ × ℚ × ℚ) :=
  vs.map (fun v => (v.1 * sc.1, v.2.1 * sc.2.1, v.2.2 * sc.2.2))

/-- Python `bpy.ops.transform.resize(value=(f, f, f))` in object mode:
multiplies every selected object's scale channels by `f` (per-object
pivot; location and rotation untouched). -/
def transform_resize (f : ℚ) (objs : List Obj) : List Obj :=
  objs.map (fun o =>
    if o.selected then
      { o with scale := (o.scale.1 * f, o.scale.2.1 * f, o.scale.2.2 * f) }
    else o)

/-- Python `bpy.ops.object.transform_apply(location=False, rotation=False,
scale=True)` on the active object: bakes the scale into the vertex data
and resets the reported scale to 1 (location and rotation untouched). -/
def transform_apply_scale (o : Obj) : Obj :=
  { o with verts := scaleVerts o.scale o.verts, scale := (1, 1, 1) }

/-- The shared per-object loop shape of the operators: for each index `i`
in turn, `context.view_layer.objects.active = obj` (the pointer is set to
`i`) and then the per-object mutation `f` runs on the now-active object. -/
def opLoop (f : Obj → Obj) : List Nat → Option Nat → List Obj → Option Nat × List Obj
  | [], a, objs => (a, objs)
  | i :: is, _, objs => opLoop f is (some i) (updAt f i objs)

/-- Model of `HorizonScaleUpOperator.execute` (`horizon.py` lines 39-61). -/
def scaleUpExecute (s : Scene) : OpResult :=
  let factor := s.horizon_scale_factor
  if factor ≤ 0 then ⟨.CANCELLED, s, []⟩
  else
    let sel := selectedIdxs s.objects
    if sel.isEmpty then ⟨.CANCELLED, s, ["No objects selected"]⟩
    else
      let objs1 := transform_resize factor s.objects
      let saved := s.active
      let st := opLoop transform_apply_scale sel s.active objs1
      ⟨.FINISHED, { s with objects := st.2, active := saved }, []⟩

/-- Model of `HorizonScaleDownOperator.execute` (`horizon.py` lines 69-91): same as
scale-up with the reciprocal factor in the resize. -/
def scaleDownExecute (s : Scene) : OpResult :=
  let factor := s.horizon_scale_factor
  if factor ≤ 0 then ⟨.CANCELLED, s, []⟩
  else
    let sel := selectedIdxs s.objects
    if sel.isEmpty then ⟨.CANCELLED, s, ["No objects selected"]⟩
    else
      let objs1 := transform_resize (1 / factor) s.objects
      let saved := s.active
      let st := opLoop transform_apply_scale sel s.active objs1
      ⟨.FINISHED, { s with objects := st.2, active := saved }, []⟩

/-- The hardcoded deny-list of `HorizonCleanUpMatsOperator.execute`. -/
def to_remove : List Name :=
  ["models/DefaultMaterial.vertex".toList, "textures/__TB_empty.vertex".toList]

/-- Python `slot.material and slot.material.name in to_remove`. -/
def denySlot (ms : MatStore) : Option MatId → Bool
  | some m => decide (matName ms m ∈ to_remove)
  | none => false

/-- The collected `slots_to_remove` indices (ascending, by `enumerate`). -/
def slotsToRemove (ms : MatStore) (slots : List (Option MatId)) : List Nat :=
  findIdxs (denySlot ms) slots

/-- Python `for i in sorted(slots_to_remove, reverse=True):
obj.active_material_index = i; bpy.ops.object.material_slot_remove()`:
the collected indices are ascending, so descending removal is a right
fold of `eraseIdx` over them. -/
def removeSlotsDesc (slots : List (Option MatId)) (idxs : List Nat) : List (Option MatId) :=
  idxs.foldr (fun i acc => acc.eraseIdx i) slots

/-- One iteration of the remaining-materials loop of
`HorizonCleanUpMatsOperator.execute` (lines 126-139), on one slot:
returns the updated global material store and the slot's new content. -/
def cleanSlotStep (pfx sfx : Name) (ms : MatStore) : Option MatId → MatStore × Option MatId
  | none => (ms, none)
  | some m =>
    let mat_name := matName ms m
    if strStartsWith mat_name pfx then
      let stripped := mat_name.drop pfx.length
      let extracted :=
        if strEndsWith stripped sfx then pySliceNeg stripped sfx.length else stripped
      match matsGetByName ms extracted with
      | some existing => (ms, some existing)
      | none => (renameMat ms m extracted, some m)
    else (ms, some m)

/-- The remaining-materials loop over an object's slot list, threading the
global material store left to right. -/
def cleanSlotsLoop (pfx sfx : Name) : MatStore → List (Option MatId) → MatStore × List (Option MatId)
  | ms, [] => (ms, [])
  | ms, sl :: rest =>
    let r1 := cleanSlotStep pfx sfx ms sl
    let r2 := cleanSlotsLoop pfx sfx r1.1 rest
    (r2.1, r1.2 :: r2.2)

/-- The per-object body of `HorizonCleanUpMatsOperator.execute`: the
deny-list removal pass followed by the remaining-materials pass. -/
def cleanObject (pfx sfx : Name) (ms : MatStore) (o : Obj) : MatStore × Obj :=
  let idxs := slotsToRemove ms o.material_slots
  let slots1 := removeSlotsDesc o.material_slots idxs
  let r := cleanSlotsLoop pfx sfx ms slots1
  (r.1, { o with material_slots := r.2 })

/-- The per-object loop of `HorizonCleanUpMatsOperator.execute`, threading
the material store and repointing the active object each iteration. -/
def cleanLoop (pfx sfx : Name) : List Nat → MatStore → Option Nat → List Obj → MatStore × (Option Nat × List Obj)
  | [], ms, a, objs => (ms, (a, objs))
  | i :: is, ms, _, objs =>
    let o := objs.getD i default
    let r := cleanObject pfx sfx ms o
    cleanLoop pfx sfx is r.1 (some i) (objs.set i r.2)

/-- Model of `HorizonCleanUpMatsOperator.execute` (`horizon.py` lines 99-144). -/
def cleanUpMatsExecute (s : Scene) : OpResult :=
  let pfx := Scene.horizon_mat_prefix s
  let sfx := s.horizon_mat_suffix
  let sel := selectedMeshIdxs s.objects
  if sel.isEmpty then ⟨.CANCELLED, s, ["No meshes selected"]⟩
  else
    let saved := s.active
    let st := cleanLoop pfx sfx sel s.materials s.active s.objects
    ⟨.FINISHED, { s with materials := st.1, objects := st.2.2, active := saved }, []⟩

/-- The per-mesh body of `HorizonRemoveGeoOperator.execute` (lines
165-190): find the slot indices bound to the chosen material; if none,
skip (`continue`); otherwise enter edit mode, deselect all faces, select
the faces whose `material_index` is among those slots, delete the
selected faces, and set object mode. -/
def removeGeoObject (mat : MatId) (o : Obj) : Obj :=
  let slot_indices := findIdxs (fun sl => sl == some mat) o.material_slots
  if slot_indices.isEmpty then o
  else
    let o1 := { o with mode := "EDIT" }
    let faces1 := o1.faces.map (fun f => { f with select := false })
    let faces2 := faces1.map (fun f =>
      if f.material_index ∈ slot_indices then { f with select := true } else f)
    let o2 := { o1 with faces := faces2.filter (fun f => !f.select) }
    { o2 with mode := "OBJECT" }

/-- Model of `HorizonRemoveGeoOperator.execute` (`horizon.py` lines 152-195). -/
def removeGeoExecute (s : Scene) : OpResult :=
  match s.horizon_remove_material with
  | none => ⟨.CANCELLED, s, ["No material selected"]⟩
  | some mat =>
    let sel := selectedMeshIdxs s.objects
    if sel.isEmpty then ⟨.CANCELLED, s, ["No meshes selected"]⟩
    else
      let saved := s.active
      let st := opLoop (removeGeoObject mat) sel s.active s.objects
      ⟨.FINISHED, { s with objects := st.2, active := saved }, []⟩

/-- Python `while obj.vertex_groups: obj.vertex_groups.remove(
obj.vertex_groups[0])`: repeated removal of the first group until none
remain. -/
def removeAllVertGroups : List String → List String
  | [] => []
  | _ :: rest => removeAllVertGroups rest

/-- The per-mesh body of `HorizonRemoveVertGroupsOperator.execute`. -/
def removeVertGroupsObject (o : Obj) : Obj :=
  { o with vertex_groups := removeAllVertGroups o.vertex_groups }

/-- Model of `HorizonRemoveVertGroupsOperator.execute` (`horizon.py` lines 203-217). -/
def removeVertGroupsExecute (s : Scene) : OpResult :=
  let sel := selectedMeshIdxs s.objects
  if sel.isEmpty then ⟨.CANCELLED, s, ["No meshes selected"]⟩
  else
    let saved := s.active
    let st := opLoop removeVertGroupsObject sel s.active s.objects
    ⟨.FINISHED, { s with objects := st.2, active := saved }, []⟩

/-- The per-object body of `HorizonRemoveCustPropsOperator.execute`:
`for key in list(obj.keys()): if key not in ['_RNA_UI']: del obj[key]`,
i.e. keep exactly the keys of the reserved list. -/
def removeCustPropsObject (o : Obj) : Obj :=
  { o with custom_props := o.custom_props.filter (fun kv => kv.1 ∈ ["_RNA_UI"]) }

/-- Model of `HorizonRemoveCustPropsOperator.execute` (`horizon.py` lines 225-241). -/
def removeCustPropsExecute (s : Scene) : OpResult :=
  let sel := selectedIdxs s.objects
  if sel.isEmpty then ⟨.CANCELLED, s, ["No objects selected"]⟩
  else
    let saved := s.active
    let st := opLoop removeCustPropsObject sel s.active s.objects
    ⟨.FINISHED, { s with objects := st.2, active := saved }, []⟩

/-- The per-mesh body of `HorizonTriangulateModOperator.execute` (lines
257-262): `mod = obj.modifiers.new(name="Triangulate",
type='TRIANGULATE')` (appended at the end of the stack), then the three
settings are overwritten. -/
def triangulateObject (o : Obj) : Obj :=
  let md := modifiersNew "Triangulate" ModType.TRIANGULATE
  let md := { md with quad_method := "BEAUTY", ngon_method := "BEAUTY",
                      keep_custom_normals := true }
  { o with modifiers := o.modifiers ++ [md] }

/-- Model of `HorizonTriangulateModOperator.execute` (`horizon.py` lines 249-265). -/
def triangulateModExecute (s : Scene) : OpResult :=
  let sel := selectedMeshIdxs s.objects
  if sel.isEmpty then ⟨.CANCELLED, s, ["No meshes selected"]⟩
  else
    let saved := s.active
    let st := opLoop triangulateObject sel s.active s.objects
    ⟨.FINISHED, { s with objects := st.2, active := saved }, []⟩

/-! ### Concrete scenes used by witnesses and counterexamples -/

/-- A selected mesh object in object mode with empty data. -/
def meshObj : Obj :=
  { type := "MESH", selected := true, mode := "OBJECT", location := (0, 0, 0),
    rotation := (0, 0, 0), scale := (1, 1, 1), verts := [], faces := [],
    material_slots := [], vertex_groups := [], custom_props := [], modifiers := [] }

/-- A scene on which all seven operators finish. -/
def sceneAllFinish : Scene :=
  { objects := [meshObj], materials := [(0, "m".toList)], active := some 0,
    horizon_scale_factor := 1, horizon_mat_prefix := "textures/atrium/".toList,
    horizon_mat_suffix := ".vertex".toList, horizon_remove_material := some 0 }

/-- A scene with a non-empty selection but scale factor 0. -/
def sceneFactorZero : Scene :=
  { sceneAllFinish with horizon_scale_factor := 0 }

/-- A scene with nothing selected. -/
def sceneEmptySel : Scene :=
  { sceneAllFinish with objects := [{ meshObj with selected := false }] }

/-- A scene with no material-to-remove chosen. -/
def sceneNoMat : Scene :=
  { sceneAllFinish with horizon_remove_material := none }

/-- Material store holding only the spec's worked example name. -/
def msBrick : MatStore := [(0, "textures/atrium/brick01.vertex".toList)]

/-- Material store for the empty-prefix witness. -/
def msWall : MatStore := [(1, "wall.vertex".toList)]

/-- A ten-face mesh: four faces on slot 0, six on slot 1. -/
def obj10faces : Obj :=
  { meshObj with
    faces := List.replicate 4 ({ material_index := 0, select := false } : Face) ++
             List.replicate 6 ({ material_index := 1, select := false } : Face),
    material_slots := [some 0, some 1] }

/-- Scene for the Remove Geo example: material 0 is chosen for removal. -/
def scene10 : Scene :=
  { objects := [obj10faces], materials := [(0, "M".toList), (1, "N".toList)],
    active := some 0, horizon_scale_factor := 1,
    horizon_mat_prefix := "textures/atrium/".toList,
    horizon_mat_suffix := ".vertex".toList, horizon_remove_material := some 0 }

/-- Same scene but the mesh starts in edit mode. -/
def sceneModeEdit : Scene :=
  { scene10 with objects := [{ obj10faces with mode := "EDIT" }] }

/-- A selected mesh with unit scale and some geometry, factor 2. -/
def sceneUnitScale : Scene :=
  { sceneAllFinish with
    objects := [{ meshObj with verts := [(1, 2, 3)] }],
    horizon_scale_factor := 2 }

/-- A selected mesh whose initial reported scale is 2, factor 2. -/
def scenePreScaled : Scene :=
  { sceneAllFinish with
    objects := [{ meshObj with verts := [(1, 0, 0)], scale := (2, 2, 2) }],
    horizon_scale_factor := 2 }

/-- An arbitrary pre-existing modifier. -/
def mirrorMod : Modifier :=
  { name := "Mirror", type := ModType.OTHER "MIRROR", quad_method := "",
    ngon_method := "", keep_custom_normals := false }

/-- A scene whose one selected mesh already carries a modifier. -/
def sceneWithMirror : Scene :=
  { sceneAllFinish with objects := [{ meshObj with modifiers := [mirrorMod] }] }

/-- The modifier the spec says Triangulate Mod appends: a triangulation
modifier with quad method BEAUTY, n-gon method BEAUTY and keep-custom-
normals enabled. -/
def horizonTriangulateMod : Modifier :=
  { name := "Triangulate", type := ModType.TRIANGULATE, quad_method := "BEAUTY",
    ngon_method := "BEAUTY", keep_custom_normals := true }

/-! ### Generic lemmas about the loop combinators -/

theorem updAt_length (f : α → α) : ∀ (i : Nat) (l : List α), (updAt f i l).length = l.length
  | 0, [] => rfl
  | _ + 1, [] => rfl
  | 0, _ :: _ => rfl
  | n + 1, _ :: l => by simp [updAt, updAt_length f n l]

theorem getElem?_updAt (f : α → α) :
    ∀ (i : Nat) (l : List α) (j : Nat),
      (updAt f i l)[j]? = if i = j then l[j]?.map f else l[j]?
  | _, [], j => by simp [updAt]
  | 0, a :: l, 0 => by simp [updAt]
  | 0, a :: l, j + 1 => by simp [updAt]
  | i + 1, a :: l, 0 => by simp [updAt]
  | i + 1, a :: l, j + 1 => by
      simpa [updAt] using getElem?_updAt f i l j

theorem mem_findIdxsAux (q : α → Bool) :
    ∀ (l : List α) (n m : Nat),
      m ∈ findIdxsAux q l n ↔ ∃ k, ∃ hk : k < l.length, q l[k] = true ∧ m = n + k := by
  intro l
  induction l with
  | nil => intro n m; simp [findIdxsAux]
  | cons a l ih =>
    intro n m
    constructor
    · intro hm
      by_cases hqa : q a
      · simp only [findIdxsAux, hqa, if_true, List.mem_cons] at hm
        rcases hm with hm | hm
        · exact ⟨0, by simp, by simpa using hqa, by omega⟩
        · rcases (ih (n + 1) m).1 hm with ⟨k, hk, hq, hmk⟩
          exact ⟨k + 1, by simpa using hk, by simpa using hq, by omega⟩
      · simp only [findIdxsAux, hqa, if_false] at hm
        rcases (ih (n + 1) m).1 hm with ⟨k, hk, hq, hmk⟩
        exact ⟨k + 1, by simpa using hk, by simpa using hq, by omega⟩
    · rintro ⟨k, hk, hq, hmk⟩
      cases k with
      | zero =>
        simp only [List.getElem_cons_zero] at hq
        simp [findIdxsAux, hq, hmk]
      | succ k =>
        have hmem : m ∈ findIdxsAux q l (n + 1) :=
          (ih (n + 1) m).2 ⟨k, by simpa using hk, by simpa using hq, by omega⟩
        by_cases hqa : q a <;> simp [findIdxsAux, hqa, hmem]

theorem mem_findIdxs (q : α → Bool) (l : List α) (m : Nat) :
    m ∈ findIdxs q l ↔ ∃ hm : m < l.length, q l[m] = true := by
  rw [findIdxs, mem_findIdxsAux]
  constructor
  · rintro ⟨k, hk, hq, hmk⟩
    subst hmk
    exact ⟨by simpa using hk, by simpa using hq⟩
  · rintro ⟨hm, hq⟩
    exact ⟨m, hm, hq, by omega⟩

theorem findIdxsAux_lower (q : α → Bool) :
    ∀ (l : List α) (n m : Nat), m ∈ findIdxsAux q l n → n ≤ m := by
  intro l
  induction l with
  | nil => intro n m h; simp [findIdxsAux] at h
  | cons a l ih =>
    intro n m h
    by_cases hqa : q a
    · simp only [findIdxsAux, hqa, if_true, List.mem_cons] at h
      rcases h with rfl | h
      · omega
      · have := ih (n + 1) m h; omega
    · simp only [findIdxsAux, hqa, if_false] at h
      have := ih (n + 1) m h; omega

theorem findIdxsAux_pairwise (q : α → Bool) :
    ∀ (l : List α) (n : Nat), (findIdxsAux q l n).Pairwise (· < ·) := by
  intro l
  induction l with
  | nil => intro n; simp [findIdxsAux]
  | cons a l ih =>
    intro n
    by_cases hqa : q a
    · simp only [findIdxsAux, hqa, if_true]
      refine List.Pairwise.cons ?_ (ih (n + 1))
      intro m hm
      have := findIdxsAux_lower q l (n + 1) m hm
      omega
    · simpa [findIdxsAux, hqa] using ih (n + 1)

theorem findIdxs_nodup (q : α → Bool) (l : List α) : (findIdxs q l).Nodup :=
  (findIdxsAux_pairwise q l 0).imp (fun h => Nat.ne_of_lt h)

theorem findIdxs_eq_nil_iff (q : α → Bool) (l : List α) :
    findIdxs q l = [] ↔ ∀ x ∈ l, q x = false := by
  constructor
  · intro h x hx
    rcases List.mem_iff_getElem.1 hx with ⟨k, hk, rfl⟩
    by_contra hq
    have : k ∈ findIdxs q l := (mem_findIdxs q l k).2 ⟨hk, by simpa using hq⟩
    simp [h] at this
  · intro h
    by_contra hne
    rcases List.exists_mem_of_ne_nil _ hne with ⟨m, hm⟩
    rcases (mem_findIdxs q l m).1 hm with ⟨hlt, hq⟩
    have := h _ (List.getElem_mem hlt)
    simp [this] at hq

theorem findIdxsAux_congr (q : α → Bool) (r : β → Bool) :
    ∀ (l : List α) (l' : List β) (n : Nat),
      (∀ j : Nat, l[j]?.map q = l'[j]?.map r) →
      findIdxsAux q l n = findIdxsAux r l' n := by
  intro l
  induction l with
  | nil =>
    intro l' n h
    cases l' with
    | nil => rfl
    | cons b l' => simpa using h 0
  | cons a l ih =>
    intro l' n h
    cases l' with
    | nil => simpa using h 0
    | cons b l' =>
      have h0 : q a = r b := by simpa using h 0
      have ht : ∀ j : Nat, l[j]?.map q = l'[j]?.map r := by
        intro j; simpa using h (j + 1)
      simp only [findIdxsAux, h0]
      by_cases hrb : r b <;> simp [hrb, ih l' (n + 1) ht]

theorem opLoop_snd_length (f : Obj → Obj) :
    ∀ (idxs : List Nat) (a : Option Nat) (objs : List Obj),
      ((opLoop f idxs a objs).2).length = objs.length
  | [], _, _ => rfl
  | i :: is, a, objs => by
      simp [opLoop, opLoop_snd_length f is (some i), updAt_length]

theorem opLoop_snd_getElem? (f : Obj → Obj) :
    ∀ (idxs : List Nat), idxs.Nodup → ∀ (a : Option Nat) (objs : List Obj) (j : Nat),
      ((opLoop f idxs a objs).2)[j]? =
        objs[j]?.map (fun o => if j ∈ idxs then f o else o) := by
  intro idxs
  induction idxs with
  | nil =>
    intro _ a objs j
    simp only [opLoop, List.not_mem_nil, if_false]
    cases objs[j]? <;> simp
  | cons i is ih =>
    intro hnd a objs j
    rcases List.nodup_cons.1 hnd with ⟨hi, his⟩
    rw [opLoop, ih his (some i) (updAt f i objs) j, getElem?_updAt]
    by_cases hij : i = j
    · subst hij
      cases h : objs[i]? <;> simp [hi, List.mem_cons]
    · cases h : objs[j]? <;>
        by_cases hjs : j ∈ is <;>
          simp [hij, hjs, List.mem_cons, Ne.symm hij]

theorem findIdxsAux_shift (q : α → Bool) :
    ∀ (l : List α) (n : Nat),
      findIdxsAux q l (n + 1) = (findIdxsAux q l n).map (· + 1) := by
  intro l
  induction l with
  | nil => intro n; simp [findIdxsAux]
  | cons a l ih =>
    intro n
    by_cases hqa : q a <;> simp [findIdxsAux, hqa, ih]

theorem eraseFoldr_map_succ :
    ∀ (idxs : List Nat) (a : α) (l : List α),
      ((idxs.map (· + 1)).foldr (fun i acc => acc.eraseIdx i) (a :: l)) =
        a :: idxs.foldr (fun i acc => acc.eraseIdx i) l := by
  intro idxs
  induction idxs with
  | nil => intro a l; rfl
  | cons i is ih =>
    intro a l
    simp only [List.map_cons, List.foldr_cons, ih]
    rfl

/-- Removing the ascending index list `findIdxs q l` from `l`, highest
index first, is the same as filtering out the elements where `q` holds. -/
theorem removeDesc_findIdxs (q : α → Bool) :
    ∀ l : List α,
      (findIdxs q l).foldr (fun i acc => acc.eraseIdx i) l = l.filter (fun x => !q x) := by
  intro l
  induction l with
  | nil => rfl
  | cons a l ih =>
    have hsh : findIdxsAux q l 1 = List.map (· + 1) (findIdxsAux q l 0) := by
      simpa using findIdxsAux_shift q l 0
    by_cases hqa : q a
    · have hidx : findIdxs q (a :: l) = 0 :: List.map (· + 1) (findIdxsAux q l 0) := by
        simp [findIdxs, findIdxsAux, hqa, hsh]
      rw [hidx, List.foldr_cons, eraseFoldr_map_succ, List.eraseIdx_cons_zero]
      simpa [List.filter_cons, hqa] using ih
    · have hidx : findIdxs q (a :: l) = List.map (· + 1) (findIdxsAux q l 0) := by
        simp [findIdxs, findIdxsAux, hqa, hsh]
      rw [hidx, eraseFoldr_map_succ]
      simpa [List.filter_cons, hqa] using ih

/-- The deny-list pass of Clean Up Mats: collecting the indices of denied
slots and removing them in descending order is exactly filtering out the
denied slots. -/
theorem removeSlotsDesc_eq_filter (ms : MatStore) (slots : List (Option MatId)) :
    removeSlotsDesc slots (slotsToRemove ms slots) =
      slots.filter (fun sl => !denySlot ms sl) :=
  removeDesc_findIdxs (denySlot ms) slots

theorem lookup_cons (k k1 : MatId) (v1 : Name) (t : MatStore) :
    List.lookup k ((k1, v1) :: t) = if k = k1 then some v1 else List.lookup k t := by
  by_cases h : k = k1
  · subst h; simp [List.lookup]
  · have hb : (k == k1) = false := beq_eq_false_iff_ne.2 h
    simp [List.lookup, hb, h]

theorem lookup_eq_some_of_mem :
    ∀ (ms : MatStore), (ms.map Prod.fst).Nodup → ∀ (k : MatId) (v : Name),
      (k, v) ∈ ms → ms.lookup k = some v := by
  intro ms
  induction ms with
  | nil => intro _ k v h; simp at h
  | cons p t ih =>
    intro hnd k v hmem
    obtain ⟨k1, v1⟩ := p
    rw [List.map_cons] at hnd
    have hp : k1 ∉ t.map Prod.fst := (List.nodup_cons.1 hnd).1
    have ht : (t.map Prod.fst).Nodup := (List.nodup_cons.1 hnd).2
    rcases List.mem_cons.1 hmem with h | h
    · injection h with h1 h2
      subst h1; subst h2
      simp [List.lookup]
    · by_cases hk : k = k1
      · exfalso
        apply hp
        subst hk
        exact List.mem_map_of_mem Prod.fst h
      · simpa [lookup_cons, hk] using ih ht k v h

theorem matsGetByName_some (ms : MatStore) (n : Name) (m : MatId)
    (hnd : (ms.map Prod.fst).Nodup) (h : matsGetByName ms n = some m) :
    ms.lookup m = some n := by
  rcases Option.map_eq_some'.1 h with ⟨pr, hfind, hfst⟩
  have hq : pr.2 = n := by simpa using List.find?_some hfind
  have hmem : pr ∈ ms := List.mem_of_find?_eq_some hfind
  have := lookup_eq_some_of_mem ms hnd pr.1 pr.2 (by simpa using hmem)
  rw [hfst, hq] at this
  exact this

theorem lookup_renameMat :
    ∀ (ms : MatStore) (m : MatId) (n : Name) (k : MatId),
      (renameMat ms m n).lookup k =
        if k = m then (ms.lookup k).map (fun _ => n) else ms.lookup k := by
  intro ms
  induction ms with
  | nil => intro m n k; simp [renameMat, List.lookup]
  | cons p t ih =>
    obtain ⟨k1, v1⟩ := p
    intro m n k
    have hr : renameMat ((k1, v1) :: t) m n =
        (if k1 = m then (k1, n) else (k1, v1)) :: renameMat t m n := by
      simp [renameMat]
    rw [hr]
    by_cases h1 : k1 = m
    · subst h1
      by_cases h2 : k = k1
      · subst h2
        simp [lookup_cons, ih]
      · simp [lookup_cons, h2, ih]
    · by_cases h2 : k = k1
      · subst h2
        simp [lookup_cons, h1, ih]
      · simp [lookup_cons, h1, h2, ih]

/-- Name of a present datablock after renaming it. -/
theorem matName_renameMat_self (ms : MatStore) (m : MatId) (n : Name)
    (h : (ms.lookup m).isSome) : matName (renameMat ms m n) m = n := by
  rcases Option.isSome_iff_exists.1 h with ⟨v, hv⟩
  simp [matName, lookup_renameMat, hv]

theorem getD_eq_of_getElem? (l : List α) (j : Nat) (x d : α) (h : l[j]? = some x) :
    l.getD j d = x := by
  simp [List.getD_eq_getElem?_getD, h]

/-! ### Active-object restoration (helpers shared by the claims) -/

theorem scaleUpExecute_active (s : Scene) : (scaleUpExecute s).scene.active = s.active := by
  by_cases h1 : s.horizon_scale_factor ≤ 0
  · simp [scaleUpExecute, h1]
  · by_cases h2 : (selectedIdxs s.objects).isEmpty <;> simp [scaleUpExecute, h1, h2]

theorem scaleDownExecute_active (s : Scene) : (scaleDownExecute s).scene.active = s.active := by
  by_cases h1 : s.horizon_scale_factor ≤ 0
  · simp [scaleDownExecute, h1]
  · by_cases h2 : (selectedIdxs s.objects).isEmpty <;> simp [scaleDownExecute, h1, h2]

theorem cleanUpMatsExecute_active (s : Scene) : (cleanUpMatsExecute s).scene.active = s.active := by
  by_cases h : (selectedMeshIdxs s.objects).isEmpty <;> simp [cleanUpMatsExecute, h]

theorem removeGeoExecute_active (s : Scene) : (removeGeoExecute s).scene.active = s.active := by
  cases hm : s.horizon_remove_material with
  | none => simp [removeGeoExecute, hm]
  | some m =>
    by_cases h : (selectedMeshIdxs s.objects).isEmpty <;> simp [removeGeoExecute, hm, h]

theorem removeVertGroupsExecute_active (s : Scene) :
    (removeVertGroupsExecute s).scene.active = s.active := by
  by_cases h : (selectedMeshIdxs s.objects).isEmpty <;> simp [removeVertGroupsExecute, h]

theorem removeCustPropsExecute_active (s : Scene) :
    (removeCustPropsExecute s).scene.active = s.active := by
  by_cases h : (selectedIdxs s.objects).isEmpty <;> simp [removeCustPropsExecute, h]

theorem triangulateModExecute_active (s : Scene) :
    (triangulateModExecute s).scene.active = s.active := by
  by_cases h : (selectedMeshIdxs s.objects).isEmpty <;> simp [triangulateModExecute, h]

/-! ### Claim theorems -/

/-- C8: every operator that repoints the active-object pointer during its
per-object pass (Scale Up, Scale Down, Clean Up Mats, Remove Geo, Remove
Vertex Groups, Remove Custom Props, Triangulate Mod) restores it: on every
execution that returns a finished status, the active-object pointer at
exit equals its value at entry. -/
theorem claim8_activeRestored (s : Scene) :
    ((scaleUpExecute s).status = Status.FINISHED →
      (scaleUpExecute s).scene.active = s.active) ∧
    ((scaleDownExecute s).status = Status.FINISHED →
      (scaleDownExecute s).scene.active = s.active) ∧
    ((cleanUpMatsExecute s).status = Status.FINISHED →
      (cleanUpMatsExecute s).scene.active = s.active) ∧
    ((removeGeoExecute s).status = Status.FINISHED →
      (removeGeoExecute s).scene.active = s.active) ∧
    ((removeVertGroupsExecute s).status = Status.FINISHED →
      (removeVertGroupsExecute s).scene.active = s.active) ∧
    ((removeCustPropsExecute s).status = Status.FINISHED →
      (removeCustPropsExecute s).scene.active = s.active) ∧
    ((triangulateModExecute s).status = Status.FINISHED →
      (triangulateModExecute s).scene.active = s.active) :=
  ⟨fun _ => scaleUpExecute_active s, fun _ => scaleDownExecute_active s,
   fun _ => cleanUpMatsExecute_active s, fun _ => removeGeoExecute_active s,
   fun _ => removeVertGroupsExecute_active s, fun _ => removeCustPropsExecute_active s,
   fun _ => triangulateModExecute_active s⟩

/-- C8 witness: on a concrete scene where all seven operators finish, each
one leaves the active-object pointer where it was. -/
theorem claim8_witness :
    (scaleUpExecute sceneAllFinish).status = Status.FINISHED ∧
    (scaleDownExecute sceneAllFinish).status = Status.FINISHED ∧
    (cleanUpMatsExecute sceneAllFinish).status = Status.FINISHED ∧
    (removeGeoExecute sceneAllFinish).status = Status.FINISHED ∧
    (removeVertGroupsExecute sceneAllFinish).status = Status.FINISHED ∧
    (removeCustPropsExecute sceneAllFinish).status = Status.FINISHED ∧
    (triangulateModExecute sceneAllFinish).status = Status.FINISHED ∧
    (scaleUpExecute sceneAllFinish).scene.active = sceneAllFinish.active ∧
    (scaleDownExecute sceneAllFinish).scene.active = sceneAllFinish.active ∧
    (cleanUpMatsExecute sceneAllFinish).scene.active = sceneAllFinish.active ∧
    (removeGeoExecute sceneAllFinish).scene.active = sceneAllFinish.active ∧
    (removeVertGroupsExecute sceneAllFinish).scene.active = sceneAllFinish.active ∧
    (removeCustPropsExecute sceneAllFinish).scene.active = sceneAllFinish.active ∧
    (triangulateModExecute sceneAllFinish).scene.active = sceneAllFinish.active := by
  refine ⟨by decide, by decide, by decide, by decide, by decide, by decide, by decide,
    ?_, ?_, ?_, ?_, ?_, ?_, ?_⟩
  · exact (claim8_activeRestored sceneAllFinish).1 (by decide)
  · exact (claim8_activeRestored sceneAllFinish).2.1 (by decide)
  · exact (claim8_activeRestored sceneAllFinish).2.2.1 (by decide)
  · exact (claim8_activeRestored sceneAllFinish).2.2.2.1 (by decide)
  · exact (claim8_activeRestored sceneAllFinish).2.2.2.2.1 (by decide)
  · exact (claim8_activeRestored sceneAllFinish).2.2.2.2.2.1 (by decide)
  · exact (claim8_activeRestored sceneAllFinish).2.2.2.2.2.2 (by decide)

/-- C1 (amended): every precondition failure (non-positive factor for
Scale Up / Scale Down, empty relevant selection, no material chosen for
Remove Geo) returns a cancelled status and leaves the scene unmodified
(zero mutation); the empty-selection and no-material failures also report
a non-fatal warning, but the non-positive-factor failure of Scale Up /
Scale Down cancels silently, reporting nothing. -/
theorem claim1_cancelPaths (s : Scene) :
    (s.horizon_scale_factor ≤ 0 →
      scaleUpExecute s = ⟨Status.CANCELLED, s, []⟩ ∧
      scaleDownExecute s = ⟨Status.CANCELLED, s, []⟩) ∧
    (¬ s.horizon_scale_factor ≤ 0 → selectedIdxs s.objects = [] →
      scaleUpExecute s = ⟨Status.CANCELLED, s, ["No objects selected"]⟩ ∧
      scaleDownExecute s = ⟨Status.CANCELLED, s, ["No objects selected"]⟩) ∧
    (selectedMeshIdxs s.objects = [] →
      cleanUpMatsExecute s = ⟨Status.CANCELLED, s, ["No meshes selected"]⟩ ∧
      removeVertGroupsExecute s = ⟨Status.CANCELLED, s, ["No meshes selected"]⟩ ∧
      triangulateModExecute s = ⟨Status.CANCELLED, s, ["No meshes selected"]⟩) ∧
    (s.horizon_remove_material = none →
      removeGeoExecute s = ⟨Status.CANCELLED, s, ["No material selected"]⟩) ∧
    (s.horizon_remove_material ≠ none → selectedMeshIdxs s.objects = [] →
      removeGeoExecute s = ⟨Status.CANCELLED, s, ["No meshes selected"]⟩) ∧
    (selectedIdxs s.objects = [] →
      removeCustPropsExecute s = ⟨Status.CANCELLED, s, ["No objects selected"]⟩) := by
  refine ⟨fun h1 => ⟨?_, ?_⟩, fun h1 h2 => ⟨?_, ?_⟩, fun h => ⟨?_, ?_, ?_⟩,
    fun h => ?_, fun h1 h2 => ?_, fun h => ?_⟩
  · simp [scaleUpExecute, h1]
  · simp [scaleDownExecute, h1]
  · simp [scaleUpExecute, h1, h2]
  · simp [scaleDownExecute, h1, h2]
  · simp [cleanUpMatsExecute, h]
  · simp [removeVertGroupsExecute, h]
  · simp [triangulateModExecute, h]
  · simp [removeGeoExecute, h]
  · rcases Option.ne_none_iff_exists'.1 h1 with ⟨m, hm⟩
    simp [removeGeoExecute, hm, h2]
  · simp [removeCustPropsExecute, h]

/-- C1 witness: the failure branches at concrete scenes — a silent cancel
for factor 0, and warning-reporting cancels for the missing-selection and
missing-material cases; each leaves the scene exactly unchanged. -/
theorem claim1_witness :
    scaleUpExecute sceneFactorZero = ⟨Status.CANCELLED, sceneFactorZero, []⟩ ∧
    scaleUpExecute sceneEmptySel = ⟨Status.CANCELLED, sceneEmptySel, ["No objects selected"]⟩ ∧
    cleanUpMatsExecute sceneEmptySel = ⟨Status.CANCELLED, sceneEmptySel, ["No meshes selected"]⟩ ∧
    removeGeoExecute sceneNoMat = ⟨Status.CANCELLED, sceneNoMat, ["No material selected"]⟩ ∧
    removeGeoExecute sceneEmptySel = ⟨Status.CANCELLED, sceneEmptySel, ["No meshes selected"]⟩ ∧
    removeCustPropsExecute sceneEmptySel = ⟨Status.CANCELLED, sceneEmptySel, ["No objects selected"]⟩ :=
  ⟨((claim1_cancelPaths sceneFactorZero).1 (by decide)).1,
   ((claim1_cancelPaths sceneEmptySel).2.1 (by decide) (by decide)).1,
   ((claim1_cancelPaths sceneEmptySel).2.2.1 (by decide)).1,
   (claim1_cancelPaths sceneNoMat).2.2.2.1 (by decide),
   (claim1_cancelPaths sceneEmptySel).2.2.2.2.1 (by decide) (by decide),
   (claim1_cancelPaths sceneEmptySel).2.2.2.2.2 (by decide)⟩

/-- C1 counterexample: with factor 0 and a non-empty selection, Scale Up
fails its precondition and cancels without mutating, but reports no
warning — contradicting the claim that every precondition failure is
reported as a non-fatal warning. -/
theorem claim1_counterexample :
    sceneFactorZero.horizon_scale_factor ≤ 0 ∧
    selectedIdxs sceneFactorZero.objects ≠ [] ∧
    (scaleUpExecute sceneFactorZero).status = Status.CANCELLED ∧
    (scaleUpExecute sceneFactorZero).scene = sceneFactorZero ∧
    (scaleUpExecute sceneFactorZero).reports = [] := by
  decide

theorem strStartsWith_nil (s : Name) : strStartsWith s [] = true := by
  cases s <;> rfl

/-- Shared characterisation of one remaining-materials iteration on a slot
whose material name starts with the configured prefix. -/
theorem cleanSlotStep_cases (pfx sfx : Name) (ms : MatStore) (m : MatId) (n : Name)
    (hnd : (ms.map Prod.fst).Nodup) (h : ms.lookup m = some n)
    (hstart : strStartsWith n pfx = true) (e : Name)
    (he : e = if strEndsWith (n.drop pfx.length) sfx
              then pySliceNeg (n.drop pfx.length) sfx.length
              else n.drop pfx.length) :
    (∀ ex : MatId, matsGetByName ms e = some ex →
       cleanSlotStep pfx sfx ms (some m) = (ms, some ex) ∧ matName ms ex = e) ∧
    (matsGetByName ms e = none →
       cleanSlotStep pfx sfx ms (some m) = (renameMat ms m e, some m) ∧
       matName (renameMat ms m e) m = e) := by
  have hn : matName ms m = n := by simp [matName, h]
  constructor
  · intro ex hex
    constructor
    · simp [cleanSlotStep, hn, hstart, ← he, hex]
    · have := matsGetByName_some ms e ex hnd hex
      simp [matName, this]
  · intro hnone
    constructor
    · simp [cleanSlotStep, hn, hstart, ← he, hnone]
    · exact matName_renameMat_self ms m e (by simp [h])

/-- C2 (amended): for a slot whose material name starts with the
configured prefix, the prefix is stripped; if the remainder ends with the
configured suffix, the suffix is stripped — except that with an *empty*
configured suffix the whole remainder is discarded (Python `s[:-0]` is the
empty string), so the stripped name is empty.  If a material with the
stripped name already exists the slot is repointed to it, otherwise the
slot's material is renamed to the stripped name.  Names that do not start
with the prefix are left untouched. -/
theorem claim2_cleanUpMats (pfx sfx : Name) (ms : MatStore) (m : MatId) (n : Name)
    (hnd : (ms.map Prod.fst).Nodup) (h : ms.lookup m = some n) :
    (strStartsWith n pfx = false → cleanSlotStep pfx sfx ms (some m) = (ms, some m)) ∧
    (strStartsWith n pfx = true →
      ∀ e : Name,
        e = (if strEndsWith (n.drop pfx.length) sfx
             then (if sfx.length = 0 then []
                   else (n.drop pfx.length).take ((n.drop pfx.length).length - sfx.length))
             else n.drop pfx.length) →
        (∀ ex : MatId, matsGetByName ms e = some ex →
           cleanSlotStep pfx sfx ms (some m) = (ms, some ex) ∧ matName ms ex = e) ∧
        (matsGetByName ms e = none →
           cleanSlotStep pfx sfx ms (some m) = (renameMat ms m e, some m) ∧
           matName (renameMat ms m e) m = e)) := by
  have hn : matName ms m = n := by simp [matName, h]
  constructor
  · intro hstart
    simp [cleanSlotStep, hn, hstart]
  · intro hstart e he
    exact cleanSlotStep_cases pfx sfx ms m n hnd h hstart e (by
      rw [he]; simp [pySliceNeg])

/-- C2 witness: the spec's worked example — material
"textures/atrium/brick01.vertex" with prefix "textures/atrium/" and suffix
".vertex" is renamed to "brick01" (no material of that name exists yet). -/
theorem claim2_witness :
    cleanSlotStep "textures/atrium/".toList ".vertex".toList msBrick (some 0) =
      (renameMat msBrick 0 "brick01".toList, some 0) ∧
    matName (renameMat msBrick 0 "brick01".toList) 0 = "brick01".toList :=
  ((claim2_cleanUpMats "textures/atrium/".toList ".vertex".toList msBrick 0
      "textures/atrium/brick01.vertex".toList (by decide) (by decide)).2 (by decide)
      "brick01".toList (by decide)).2 (by decide)

/-- C2 counterexample: with prefix "" and suffix "", the name "a" starts
with the prefix and the remainder "a" ends with the suffix, so the claim
requires the stripped name to be "a" (stripping an empty suffix removes
nothing) and the slot to be repointed to the existing material "a" —
leaving the name "a" in place.  The code instead computes Python
`"a"[:-0] = ""` and renames the material to the empty string. -/
theorem claim2_counterexample :
    strStartsWith "a".toList [] = true ∧
    strEndsWith "a".toList [] = true ∧
    cleanSlotStep [] [] [(0, "a".toList)] (some 0) = ([(0, [])], some 0) ∧
    matName [(0, ([] : Name))] 0 ≠ "a".toList := by
  decide

/-- C9 (amended): with an empty configured prefix the prefix test succeeds
for every material name, so no name is non-matching; every slot whose
material name ends with the (non-empty) configured suffix has that suffix
stripped, by repointing to an existing material of the stripped name or by
renaming the slot's material to it.  (With an empty suffix the code
empties the name instead — the Python `[:-0]` pitfall.) -/
theorem claim9_emptyPrefix (sfx : Name) (ms : MatStore) (m : MatId) (n : Name)
    (hnd : (ms.map Prod.fst).Nodup) (h : ms.lookup m = some n) :
    strStartsWith n [] = true ∧
    (sfx ≠ [] → strEndsWith n sfx = true →
      (∀ ex : MatId, matsGetByName ms (n.take (n.length - sfx.length)) = some ex →
         cleanSlotStep [] sfx ms (some m) = (ms, some ex) ∧
         matName ms ex = n.take (n.length - sfx.length)) ∧
      (matsGetByName ms (n.take (n.length - sfx.length)) = none →
         cleanSlotStep [] sfx ms (some m) =
           (renameMat ms m (n.take (n.length - sfx.length)), some m) ∧
         matName (renameMat ms m (n.take (n.length - sfx.length))) m =
           n.take (n.length - sfx.length))) := by
  refine ⟨strStartsWith_nil n, fun hne hends => ?_⟩
  have hlen : sfx.length ≠ 0 := by
    intro h0; exact hne (List.length_eq_zero.1 h0)
  exact cleanSlotStep_cases [] sfx ms m n hnd h (strStartsWith_nil n)
    (n.take (n.length - sfx.length)) (by
      simp [List.drop_zero, hends, pySliceNeg, hlen])

/-- C9 witness: with prefix "" and suffix ".vertex", the material
"wall.vertex" is renamed to "wall". -/
theorem claim9_witness :
    cleanSlotStep [] ".vertex".toList msWall (some 1) =
      (renameMat msWall 1 "wall".toList, some 1) ∧
    matName (renameMat msWall 1 "wall".toList) 1 = "wall".toList := by
  have h := ((claim9_emptyPrefix ".vertex".toList msWall 1 "wall.vertex".toList
      (by decide) (by decide)).2 (by decide) (by decide)).2 (by decide)
  exact h

/-- C9 counterexample: with prefix "" and suffix "", the name "b" ends
with the configured suffix, so the claim requires the suffix-stripped name
"b"; the code instead renames the material to the empty string. -/
theorem claim9_counterexample :
    strEndsWith "b".toList [] = true ∧
    cleanSlotStep [] [] [(5, "b".toList)] (some 5) = ([(5, [])], some 5) ∧
    matName ((cleanSlotStep [] [] [(5, "b".toList)] (some 5)).1) 5 ≠
      ("b".toList).take (("b".toList).length - ([] : Name).length) := by
  decide

/-- C5: in Clean Up Mats, every slot whose assigned material's name is
exactly "models/DefaultMaterial.vertex" or "textures/__TB_empty.vertex" is
removed from the slot list before any renaming: the per-object pipeline
equals the deny-filter followed by the rename pass, the rename pass sees
no denied slot, and the deny test is exactly those two names. -/
theorem claim5_denyList (pfx sfx : Name) (ms : MatStore) (o : Obj) :
    removeSlotsDesc o.material_slots (slotsToRemove ms o.material_slots) =
      o.material_slots.filter (fun sl => !denySlot ms sl) ∧
    cleanObject pfx sfx ms o =
      (let r := cleanSlotsLoop pfx sfx ms
         (o.material_slots.filter (fun sl => !denySlot ms sl))
       (r.1, { o with material_slots := r.2 })) ∧
    (o.material_slots.filter (fun sl => !denySlot ms sl)).all
      (fun sl => !denySlot ms sl) = true ∧
    (∀ i : MatId, denySlot ms (some i) =
      (decide (matName ms i = "models/DefaultMaterial.vertex".toList) ||
       decide (matName ms i = "textures/__TB_empty.vertex".toList))) := by
  refine ⟨removeSlotsDesc_eq_filter ms o.material_slots, ?_, ?_, ?_⟩
  · simp only [cleanObject, removeSlotsDesc_eq_filter]
  · simp only [List.all_eq_true]
    intro sl hsl
    exact (List.mem_filter.1 hsl).2
  · intro i
    by_cases h1 : matName ms i = "models/DefaultMaterial.vertex".toList <;>
      by_cases h2 : matName ms i = "textures/__TB_empty.vertex".toList <;>
        simp [denySlot, to_remove, h1, h2]

theorem count_none_filter (f : Option MatId → Bool) (hf : f none = true) :
    ∀ slots : List (Option MatId),
      (slots.filter f).count none = slots.count none := by
  intro slots
  induction slots with
  | nil => rfl
  | cons a t ih =>
    cases a with
    | none => simp [List.filter_cons, hf, List.count_cons, ih]
    | some m =>
      by_cases hfa : f (some m) <;>
        simp [List.filter_cons, hfa, List.count_cons, ih]

/-- C10: Clean Up Mats leaves empty material slots (no assigned material)
completely unchanged: the deny test is false on an empty slot, the
deny-removal pass keeps every empty slot (their count is preserved), and
the rename pass maps an empty slot to itself without touching the
material store. -/
theorem claim10_emptySlots (pfx sfx : Name) (ms : MatStore)
    (slots : List (Option MatId)) :
    denySlot ms none = false ∧
    (removeSlotsDesc slots (slotsToRemove ms slots)).count none =
      slots.count none ∧
    cleanSlotStep pfx sfx ms none = (ms, none) := by
  refine ⟨rfl, ?_, rfl⟩
  rw [removeSlotsDesc_eq_filter]
  exact count_none_filter _ rfl slots

/-! ### Remove Geo characterisation -/

theorem mem_selectedMeshIdxs (objs : List Obj) (j : Nat) (hj : j < objs.length)
    (hsel : objs[j].selected = true) (hmesh : objs[j].type = "MESH") :
    j ∈ selectedMeshIdxs objs :=
  (mem_findIdxs _ objs j).2 ⟨hj, by simp [hsel, hmesh]⟩

theorem mem_findIdxs_beq_getD (slots : List (Option MatId)) (mat : MatId) (idx : Nat) :
    (idx ∈ findIdxs (fun sl => sl == some mat) slots) ↔
      slots.getD idx none = some mat := by
  rw [mem_findIdxs]
  constructor
  · rintro ⟨hlt, hq⟩
    have hx : slots[idx] = some mat := by simpa using hq
    rw [List.getD_eq_getElem?_getD, List.getElem?_eq_getElem hlt, hx]
    rfl
  · intro h
    rcases Nat.lt_or_ge idx slots.length with hlt | hge
    · refine ⟨hlt, ?_⟩
      rw [List.getD_eq_getElem?_getD, List.getElem?_eq_getElem hlt] at h
      simpa using h
    · rw [List.getD_eq_getElem?_getD, List.getElem?_eq_none hge] at h
      simp at h

/-- A mesh with no slot bound to the chosen material is skipped untouched. -/
theorem removeGeoObject_skip (mat : MatId) (o : Obj)
    (hnot : some mat ∉ o.material_slots) : removeGeoObject mat o = o := by
  have hidx : findIdxs (fun sl => sl == some mat) o.material_slots = [] := by
    refine (findIdxs_eq_nil_iff _ _).2 (fun x hx => ?_)
    exact beq_eq_false_iff_ne.2 (fun he => hnot (he ▸ hx))
  simp [removeGeoObject, hidx]

theorem removeGeoFaces_pipeline (idxs : List Nat) (slots : List (Option MatId))
    (mat : MatId) (hiff : ∀ i : Nat, (i ∈ idxs) ↔ slots.getD i none = some mat) :
    ∀ faces : List Face,
      ((faces.map (fun f => { f with select := false })).map
          (fun f => if f.material_index ∈ idxs then { f with select := true } else f)).filter
        (fun f => !f.select) =
      (faces.filter
        (fun f => !(slots.getD f.material_index none == some mat))).map
        (fun f => { f with select := false }) := by
  intro faces
  induction faces with
  | nil => rfl
  | cons f t ih =>
    rw [List.map_map] at ih
    by_cases hi : f.material_index ∈ idxs
    · have hd' : slots[f.material_index]?.getD none = some mat := by
        rw [← List.getD_eq_getElem?_getD]
        exact (hiff _).1 hi
      simp [List.filter_cons, hi, hd', ih]
    · have hd' : ¬ slots[f.material_index]?.getD none = some mat := by
        rw [← List.getD_eq_getElem?_getD]
        exact fun he => hi ((hiff _).2 he)
      simp [List.filter_cons, hi, hd', ih]

/-- The per-mesh effect of Remove Geo on a mesh that has a slot bound to
the chosen material: exactly the faces whose slot index is bound to it are
deleted (the survivors keep their data, deselected), and the mesh is left
in object mode. -/
theorem removeGeoObject_hit (mat : MatId) (o : Obj)
    (hmem : some mat ∈ o.material_slots) :
    (removeGeoObject mat o).faces =
      (o.faces.filter
        (fun f => !(o.material_slots.getD f.material_index none == some mat))).map
        (fun f => { f with select := false }) ∧
    (removeGeoObject mat o).mode = "OBJECT" := by
  have hne : findIdxs (fun sl => sl == some mat) o.material_slots ≠ [] := by
    rcases List.mem_iff_getElem.1 hmem with ⟨k, hk, hkeq⟩
    exact List.ne_nil_of_mem ((mem_findIdxs _ _ k).2 ⟨hk, by simp [hkeq]⟩)
  have hne' : (findIdxs (fun sl => sl == some mat) o.material_slots).isEmpty = false := by
    simp [List.isEmpty_eq_false, hne]
  have hiff := fun i => mem_findIdxs_beq_getD o.material_slots mat i
  constructor
  · simp only [removeGeoObject, hne', Bool.false_eq_true, if_false]
    exact removeGeoFaces_pipeline _ o.material_slots mat hiff o.faces
  · simp [removeGeoObject, hne']

/-- The objects after a finished Remove Geo run: every selected mesh is
transformed by the per-mesh body, everything else is untouched. -/
theorem removeGeoExecute_objects (s : Scene) (mat : MatId)
    (hm : s.horizon_remove_material = some mat)
    (hne : selectedMeshIdxs s.objects ≠ []) :
    (removeGeoExecute s).status = Status.FINISHED ∧
    ∀ j : Nat, ((removeGeoExecute s).scene.objects)[j]? =
      s.objects[j]?.map
        (fun o => if j ∈ selectedMeshIdxs s.objects then removeGeoObject mat o else o) := by
  have hne' : (selectedMeshIdxs s.objects).isEmpty = false :=
    List.isEmpty_eq_false.2 hne
  have hnd : (selectedMeshIdxs s.objects).Nodup := findIdxs_nodup _ s.objects
  refine ⟨by simp [removeGeoExecute, hm, hne'], fun j => ?_⟩
  have hobj : (removeGeoExecute s).scene.objects =
      (opLoop (removeGeoObject mat) (selectedMeshIdxs s.objects) s.active s.objects).2 := by
    simp [removeGeoExecute, hm, hne']
  rw [hobj, opLoop_snd_getElem? _ _ hnd]

/-- C4: on a finished Remove Geo run, every selected mesh loses exactly the
faces whose material-slot index is bound to the chosen material, and a
selected mesh with no slot bound to it is left entirely unchanged. -/
theorem claim4_removeGeo (s : Scene) (mat : MatId) (j : Nat)
    (hj : j < s.objects.length)
    (hm : s.horizon_remove_material = some mat)
    (hsel : (s.objects[j]).selected = true)
    (hmesh : (s.objects[j]).type = "MESH") :
    (removeGeoExecute s).status = Status.FINISHED ∧
    (removeGeoExecute s).scene.objects.length = s.objects.length ∧
    (some mat ∉ (s.objects[j]).material_slots →
      (removeGeoExecute s).scene.objects.getD j default = s.objects[j]) ∧
    (some mat ∈ (s.objects[j]).material_slots →
      ((removeGeoExecute s).scene.objects.getD j default).faces =
        ((s.objects[j]).faces.filter
          (fun f => !((s.objects[j]).material_slots.getD f.material_index none == some mat))).map
          (fun f => { f with select := false })) := by
  have hmem : j ∈ selectedMeshIdxs s.objects := mem_selectedMeshIdxs _ j hj hsel hmesh
  have hne : selectedMeshIdxs s.objects ≠ [] := List.ne_nil_of_mem hmem
  obtain ⟨hstat, hchar⟩ := removeGeoExecute_objects s mat hm hne
  have hj? : s.objects[j]? = some (s.objects[j]) := List.getElem?_eq_getElem hj
  have hGet : ((removeGeoExecute s).scene.objects).getD j default =
      removeGeoObject mat (s.objects[j]) := by
    refine getD_eq_of_getElem? _ j _ default ?_
    rw [hchar j, hj?]
    simp [hmem]
  refine ⟨hstat, ?_, ?_, ?_⟩
  · have h1 : (removeGeoExecute s).scene.objects =
        (opLoop (removeGeoObject mat) (selectedMeshIdxs s.objects) s.active s.objects).2 := by
      have hne' : (selectedMeshIdxs s.objects).isEmpty = false :=
        List.isEmpty_eq_false.2 hne
      simp [removeGeoExecute, hm, hne']
    rw [h1, opLoop_snd_length]
  · intro hnot
    rw [hGet, removeGeoObject_skip mat _ hnot]
  · intro hmemslot
    rw [hGet]
    exact (removeGeoObject_hit mat _ hmemslot).1

/-- C4 witness: the spec's example — a ten-face mesh, four faces on the
slot bound to the chosen material, ends with exactly the other six. -/
theorem claim4_witness :
    (removeGeoExecute scene10).status = Status.FINISHED ∧
    ((removeGeoExecute scene10).scene.objects.getD 0 default).faces =
      List.replicate 6 ({ material_index := 1, select := false } : Face) := by
  obtain ⟨h1, _, _, h4⟩ := claim4_removeGeo scene10 0 0 (by decide) (by decide)
    (by decide) (by decide)
  refine ⟨h1, ?_⟩
  rw [h4 (by decide)]
  decide

/-- C6 (amended): for every selected mesh that has a slot bound to the
chosen material, Remove Geo enters editing mode for that mesh, deletes the
matching faces, and then sets that mesh to *object* mode — which equals
the prior mode only when the mesh started in object mode. -/
theorem claim6_removeGeoMode (s : Scene) (mat : MatId) (j : Nat)
    (hj : j < s.objects.length)
    (hm : s.horizon_remove_material = some mat)
    (hsel : (s.objects[j]).selected = true)
    (hmesh : (s.objects[j]).type = "MESH")
    (hmemslot : some mat ∈ (s.objects[j]).material_slots) :
    (removeGeoExecute s).status = Status.FINISHED ∧
    ((removeGeoExecute s).scene.objects.getD j default).mode = "OBJECT" ∧
    ((removeGeoExecute s).scene.objects.getD j default).faces =
      ((s.objects[j]).faces.filter
        (fun f => !((s.objects[j]).material_slots.getD f.material_index none == some mat))).map
        (fun f => { f with select := false }) := by
  have hmem : j ∈ selectedMeshIdxs s.objects := mem_selectedMeshIdxs _ j hj hsel hmesh
  have hne : selectedMeshIdxs s.objects ≠ [] := List.ne_nil_of_mem hmem
  obtain ⟨hstat, hchar⟩ := removeGeoExecute_objects s mat hm hne
  have hj? : s.objects[j]? = some (s.objects[j]) := List.getElem?_eq_getElem hj
  have hGet : ((removeGeoExecute s).scene.objects).getD j default =
      removeGeoObject mat (s.objects[j]) := by
    refine getD_eq_of_getElem? _ j _ default ?_
    rw [hchar j, hj?]
    simp [hmem]
  obtain ⟨hfaces, hmode⟩ := removeGeoObject_hit mat (s.objects[j]) hmemslot
  exact ⟨hstat, by rw [hGet]; exact hmode, by rw [hGet]; exact hfaces⟩

/-- C6 witness: on a mesh starting in object mode with a bound slot, the
operator finishes, the mesh ends in object mode (the prior mode here) and
the matching faces are gone. -/
theorem claim6_witness :
    (scene10.objects.getD 0 default).mode = "OBJECT" ∧
    (removeGeoExecute scene10).status = Status.FINISHED ∧
    ((removeGeoExecute scene10).scene.objects.getD 0 default).mode = "OBJECT" := by
  obtain ⟨h1, h2, _⟩ := claim6_removeGeoMode scene10 0 0 (by decide) (by decide)
    (by decide) (by decide) (by decide)
  exact ⟨by decide, h1, h2⟩

/-- C6 counterexample: a processed mesh that starts in edit mode ends in
object mode, not in its prior mode — the claim that the operator returns
the mesh to the mode it was in before the run fails. -/
theorem claim6_counterexample :
    (sceneModeEdit.objects.getD 0 default).mode = "EDIT" ∧
    (removeGeoExecute sceneModeEdit).status = Status.FINISHED ∧
    ((removeGeoExecute sceneModeEdit).scene.objects.getD 0 default).mode = "OBJECT" ∧
    ((removeGeoExecute sceneModeEdit).scene.objects.getD 0 default).mode ≠
      (sceneModeEdit.objects.getD 0 default).mode := by
  decide

/-! ### Triangulate Mod characterisation -/

theorem triangulateObject_modifiers (o : Obj) :
    (triangulateObject o).modifiers = o.modifiers ++ [horizonTriangulateMod] := rfl

theorem triangulateModExecute_objects (s : Scene)
    (hne : selectedMeshIdxs s.objects ≠ []) :
    (triangulateModExecute s).status = Status.FINISHED ∧
    ∀ j : Nat, ((triangulateModExecute s).scene.objects)[j]? =
      s.objects[j]?.map
        (fun o => if j ∈ selectedMeshIdxs s.objects then triangulateObject o else o) := by
  have hne' : (selectedMeshIdxs s.objects).isEmpty = false :=
    List.isEmpty_eq_false.2 hne
  have hnd : (selectedMeshIdxs s.objects).Nodup := findIdxs_nodup _ s.objects
  refine ⟨by simp [triangulateModExecute, hne'], fun j => ?_⟩
  have hobj : (triangulateModExecute s).scene.objects =
      (opLoop triangulateObject (selectedMeshIdxs s.objects) s.active s.objects).2 := by
    simp [triangulateModExecute, hne']
  rw [hobj, opLoop_snd_getElem? _ _ hnd]

theorem triangulateModExecute_selection (s : Scene)
    (hne : selectedMeshIdxs s.objects ≠ []) :
    selectedMeshIdxs ((triangulateModExecute s).scene.objects) =
      selectedMeshIdxs s.objects := by
  obtain ⟨_, hchar⟩ := triangulateModExecute_objects s hne
  have hpt : ∀ j : Nat,
      (((triangulateModExecute s).scene.objects)[j]?).map
        (fun o => o.selected && o.type == "MESH") =
      (s.objects[j]?).map (fun o => o.selected && o.type == "MESH") := by
    intro j
    rw [hchar j]
    cases s.objects[j]? with
    | none => rfl
    | some o =>
      by_cases hj : j ∈ selectedMeshIdxs s.objects <;> simp [hj, triangulateObject]
  simp only [selectedMeshIdxs, findIdxs]
  exact findIdxsAux_congr _ _ _ _ 0 hpt

/-- C7: Triangulate Mod appends one new triangulation modifier (quad
method BEAUTY, n-gon method BEAUTY, keep-custom-normals enabled) at the
end of every selected mesh's modifier stack, leaving all existing
modifiers intact, and a second invocation appends another copy — two
triangulation modifiers are then present. -/
theorem claim7_triangulate (s : Scene) (j : Nat) (hj : j < s.objects.length)
    (hsel : (s.objects[j]).selected = true)
    (hmesh : (s.objects[j]).type = "MESH") :
    (triangulateModExecute s).status = Status.FINISHED ∧
    (triangulateModExecute (triangulateModExecute s).scene).status = Status.FINISHED ∧
    (triangulateModExecute s).scene.objects.length = s.objects.length ∧
    ((triangulateModExecute s).scene.objects.getD j default).modifiers =
      (s.objects[j]).modifiers ++ [horizonTriangulateMod] ∧
    ((triangulateModExecute (triangulateModExecute s).scene).scene.objects.getD j
        default).modifiers =
      (s.objects[j]).modifiers ++ [horizonTriangulateMod, horizonTriangulateMod] := by
  have hmem : j ∈ selectedMeshIdxs s.objects := mem_selectedMeshIdxs _ j hj hsel hmesh
  have hne : selectedMeshIdxs s.objects ≠ [] := List.ne_nil_of_mem hmem
  obtain ⟨hstat1, hchar1⟩ := triangulateModExecute_objects s hne
  have hj? : s.objects[j]? = some (s.objects[j]) := List.getElem?_eq_getElem hj
  have hget1? : ((triangulateModExecute s).scene.objects)[j]? =
      some (triangulateObject (s.objects[j])) := by
    rw [hchar1 j, hj?]
    simp [hmem]
  have hget1 : ((triangulateModExecute s).scene.objects).getD j default =
      triangulateObject (s.objects[j]) :=
    getD_eq_of_getElem? _ j _ default hget1?
  have hseleq := triangulateModExecute_selection s hne
  have hne2 : selectedMeshIdxs ((triangulateModExecute s).scene.objects) ≠ [] := by
    rw [hseleq]; exact hne
  obtain ⟨hstat2, hchar2⟩ :=
    triangulateModExecute_objects (triangulateModExecute s).scene hne2
  have hmem2 : j ∈ selectedMeshIdxs ((triangulateModExecute s).scene.objects) := by
    rw [hseleq]; exact hmem
  have hget2 : ((triangulateModExecute (triangulateModExecute s).scene).scene.objects).getD
      j default = triangulateObject (triangulateObject (s.objects[j])) := by
    refine getD_eq_of_getElem? _ j _ default ?_
    rw [hchar2 j, hget1?]
    simp [hmem2]
  have hlen : (triangulateModExecute s).scene.objects.length = s.objects.length := by
    have hne' : (selectedMeshIdxs s.objects).isEmpty = false :=
      List.isEmpty_eq_false.2 hne
    have hobj : (triangulateModExecute s).scene.objects =
        (opLoop triangulateObject (selectedMeshIdxs s.objects) s.active s.objects).2 := by
      simp [triangulateModExecute, hne']
    rw [hobj, opLoop_snd_length]
  refine ⟨hstat1, hstat2, hlen, ?_, ?_⟩
  · rw [hget1, triangulateObject_modifiers]
  · rw [hget2, triangulateObject_modifiers, triangulateObject_modifiers,
      List.append_assoc]
    rfl

/-- C7 witness: a mesh that already has a Mirror modifier — one run
appends the triangulation modifier after it, a second run appends a
second copy; the Mirror modifier survives both runs. -/
theorem claim7_witness :
    ((triangulateModExecute sceneWithMirror).scene.objects.getD 0 default).modifiers =
      [mirrorMod, horizonTriangulateMod] ∧
    ((triangulateModExecute (triangulateModExecute sceneWithMirror).scene).scene.objects.getD
        0 default).modifiers =
      [mirrorMod, horizonTriangulateMod, horizonTriangulateMod] := by
  obtain ⟨_, _, _, h4, h5⟩ := claim7_triangulate sceneWithMirror 0 (by decide)
    (by decide) (by decide)
  exact ⟨by rw [h4]; decide, by rw [h5]; decide⟩

/-! ### Scale Up / Scale Down characterisation -/

theorem mem_selectedIdxs_iff (objs : List Obj) (j : Nat) (o : Obj)
    (h : objs[j]? = some o) : (j ∈ selectedIdxs objs) ↔ o.selected = true := by
  rcases List.getElem?_eq_some.1 h with ⟨hj, hjo⟩
  rw [selectedIdxs, mem_findIdxs]
  constructor
  · rintro ⟨_, hq⟩
    rwa [hjo] at hq
  · intro hq
    exact ⟨hj, by rwa [hjo]⟩

theorem scaleUpExecute_char (s : Scene)
    (hf : ¬ s.horizon_scale_factor ≤ 0) (hne : selectedIdxs s.objects ≠ []) :
    (scaleUpExecute s).status = Status.FINISHED ∧
    (scaleUpExecute s).scene.horizon_scale_factor = s.horizon_scale_factor ∧
    ∀ j : Nat, ((scaleUpExecute s).scene.objects)[j]? =
      s.objects[j]?.map (fun o =>
        if o.selected then
          transform_apply_scale
            { o with scale := (o.scale.1 * s.horizon_scale_factor,
                               o.scale.2.1 * s.horizon_scale_factor,
                               o.scale.2.2 * s.horizon_scale_factor) }
        else o) := by
  have hne' : (selectedIdxs s.objects).isEmpty = false := List.isEmpty_eq_false.2 hne
  have hnd : (selectedIdxs s.objects).Nodup := findIdxs_nodup _ s.objects
  refine ⟨by simp [scaleUpExecute, hf, hne'], by simp [scaleUpExecute, hf, hne'], fun j => ?_⟩
  have hobj : (scaleUpExecute s).scene.objects =
      (opLoop transform_apply_scale (selectedIdxs s.objects) s.active
        (transform_resize s.horizon_scale_factor s.objects)).2 := by
    simp [scaleUpExecute, hf, hne']
  rw [hobj, opLoop_snd_getElem? _ _ hnd, transform_resize, List.getElem?_map,
    Option.map_map]
  cases h : s.objects[j]? with
  | none => rfl
  | some o =>
    have hmemiff := mem_selectedIdxs_iff s.objects j o h
    by_cases hselo : o.selected = true
    · have hmem : j ∈ selectedIdxs s.objects := hmemiff.2 hselo
      simp [Function.comp, hselo, hmem]
    · have hmem : j ∉ selectedIdxs s.objects := fun hm => hselo (hmemiff.1 hm)
      simp [Function.comp, hselo, hmem]

theorem scaleDownExecute_char (s : Scene)
    (hf : ¬ s.horizon_scale_factor ≤ 0) (hne : selectedIdxs s.objects ≠ []) :
    (scaleDownExecute s).status = Status.FINISHED ∧
    ∀ j : Nat, ((scaleDownExecute s).scene.objects)[j]? =
      s.objects[j]?.map (fun o =>
        if o.selected then
          transform_apply_scale
            { o with scale := (o.scale.1 * (1 / s.horizon_scale_factor),
                               o.scale.2.1 * (1 / s.horizon_scale_factor),
                               o.scale.2.2 * (1 / s.horizon_scale_factor)) }
        else o) := by
  have hne' : (selectedIdxs s.objects).isEmpty = false := List.isEmpty_eq_false.2 hne
  have hnd : (selectedIdxs s.objects).Nodup := findIdxs_nodup _ s.objects
  refine ⟨by simp [scaleDownExecute, hf, hne'], fun j => ?_⟩
  have hobj : (scaleDownExecute s).scene.objects =
      (opLoop transform_apply_scale (selectedIdxs s.objects) s.active
        (transform_resize (1 / s.horizon_scale_factor) s.objects)).2 := by
    simp [scaleDownExecute, hf, hne']
  rw [hobj, opLoop_snd_getElem? _ _ hnd, transform_resize, List.getElem?_map,
    Option.map_map]
  cases h : s.objects[j]? with
  | none => rfl
  | some o =>
    have hmemiff := mem_selectedIdxs_iff s.objects j o h
    by_cases hselo : o.selected = true
    · have hmem : j ∈ selectedIdxs s.objects := hmemiff.2 hselo
      simp [Function.comp, hselo, hmem]
    · have hmem : j ∉ selectedIdxs s.objects := fun hm => hselo (hmemiff.1 hm)
      simp [Function.comp, hselo, hmem]

theorem scaleUpExecute_selection (s : Scene)
    (hf : ¬ s.horizon_scale_factor ≤ 0) (hne : selectedIdxs s.objects ≠ []) :
    selectedIdxs ((scaleUpExecute s).scene.objects) = selectedIdxs s.objects := by
  obtain ⟨_, _, hchar⟩ := scaleUpExecute_char s hf hne
  have hpt : ∀ j : Nat,
      (((scaleUpExecute s).scene.objects)[j]?).map (fun o => o.selected) =
      (s.objects[j]?).map (fun o => o.selected) := by
    intro j
    rw [hchar j]
    cases s.objects[j]? with
    | none => rfl
    | some o =>
      by_cases hselo : o.selected = true <;>
        simp [hselo, transform_apply_scale]
  simp only [selectedIdxs, findIdxs]
  exact findIdxsAux_congr _ _ _ _ 0 hpt

theorem scaleVerts_cancel (f : ℚ) (hf0 : f ≠ 0) (vs : List (ℚ × ℚ × ℚ)) :
    scaleVerts (1 * (1 / f), 1 * (1 / f), 1 * (1 / f))
      (scaleVerts (1 * f, 1 * f, 1 * f) vs) = vs := by
  have hx : ∀ a : ℚ, a * f * f⁻¹ = a := by
    intro a
    rw [mul_assoc, mul_inv_cancel₀ hf0, mul_one]
  simp only [scaleVerts, List.map_map]
  have hpt : ∀ v ∈ vs,
      ((fun v : ℚ × ℚ × ℚ => (v.1 * (1 * (1 / f)), v.2.1 * (1 * (1 / f)),
          v.2.2 * (1 * (1 / f)))) ∘
        (fun v : ℚ × ℚ × ℚ => (v.1 * (1 * f), v.2.1 * (1 * f), v.2.2 * (1 * f)))) v =
        id v := by
    rintro ⟨a, b, c⟩ _
    simp [Function.comp, one_div, hx]
  rw [List.map_congr_left hpt, List.map_id]

/-- C3 (amended): for a non-empty selection and positive factor f, after
Scale Up every selected object's reported scale is 1.0 with location and
rotation preserved, and likewise after the subsequent Scale Down; the
original object-space geometry is restored exactly (over exact
arithmetic) for the selected objects whose initial reported scale was
1.0.  (An object entering with a non-unit scale instead ends with that
scale baked into its geometry.) -/
theorem claim3_scaleRoundtrip (s : Scene) (j : Nat) (hj : j < s.objects.length)
    (hf : 0 < s.horizon_scale_factor)
    (hsel : (s.objects[j]).selected = true) :
    (scaleUpExecute s).status = Status.FINISHED ∧
    (scaleDownExecute (scaleUpExecute s).scene).status = Status.FINISHED ∧
    ((scaleUpExecute s).scene.objects.getD j default).scale = (1, 1, 1) ∧
    ((scaleDownExecute (scaleUpExecute s).scene).scene.objects.getD j default).scale =
      (1, 1, 1) ∧
    ((scaleUpExecute s).scene.objects.getD j default).location =
      (s.objects[j]).location ∧
    ((scaleUpExecute s).scene.objects.getD j default).rotation =
      (s.objects[j]).rotation ∧
    ((scaleDownExecute (scaleUpExecute s).scene).scene.objects.getD j default).location =
      (s.objects[j]).location ∧
    ((scaleDownExecute (scaleUpExecute s).scene).scene.objects.getD j default).rotation =
      (s.objects[j]).rotation ∧
    ((s.objects[j]).scale = (1, 1, 1) →
      ((scaleDownExecute (scaleUpExecute s).scene).scene.objects.getD j default).verts =
        (s.objects[j]).verts) := by
  have hfle : ¬ s.horizon_scale_factor ≤ 0 := not_le.2 hf
  have hf0 : s.horizon_scale_factor ≠ 0 := ne_of_gt hf
  have hmem : j ∈ selectedIdxs s.objects :=
    (mem_findIdxs _ s.objects j).2 ⟨hj, hsel⟩
  have hne : selectedIdxs s.objects ≠ [] := List.ne_nil_of_mem hmem
  have hj? : s.objects[j]? = some (s.objects[j]) := List.getElem?_eq_getElem hj
  obtain ⟨hstat1, hfac1, hchar1⟩ := scaleUpExecute_char s hfle hne
  have hget1? : ((scaleUpExecute s).scene.objects)[j]? =
      some (transform_apply_scale
        { s.objects[j] with
          scale := ((s.objects[j]).scale.1 * s.horizon_scale_factor,
                    (s.objects[j]).scale.2.1 * s.horizon_scale_factor,
                    (s.objects[j]).scale.2.2 * s.horizon_scale_factor) }) := by
    rw [hchar1 j, hj?]
    simp [hsel]
  have hget1 := getD_eq_of_getElem? _ j _ default hget1?
  have hseleq := scaleUpExecute_selection s hfle hne
  have hne2 : selectedIdxs ((scaleUpExecute s).scene.objects) ≠ [] := by
    rw [hseleq]; exact hne
  have hfle2 : ¬ (scaleUpExecute s).scene.horizon_scale_factor ≤ 0 := by
    rw [hfac1]; exact hfle
  obtain ⟨hstat2, hchar2⟩ := scaleDownExecute_char (scaleUpExecute s).scene hfle2 hne2
  have hget2? : ((scaleDownExecute (scaleUpExecute s).scene).scene.objects)[j]? =
      some (transform_apply_scale
        { (transform_apply_scale
            { s.objects[j] with
              scale := ((s.objects[j]).scale.1 * s.horizon_scale_factor,
                        (s.objects[j]).scale.2.1 * s.horizon_scale_factor,
                        (s.objects[j]).scale.2.2 * s.horizon_scale_factor) }) with
          scale := (1 * (1 / s.horizon_scale_factor),
                    1 * (1 / s.horizon_scale_factor),
                    1 * (1 / s.horizon_scale_factor)) }) := by
    rw [hchar2 j, hget1?, hfac1]
    simp [hsel, transform_apply_scale]
  have hget2 := getD_eq_of_getElem? _ j _ default hget2?
  refine ⟨hstat1, hstat2, ?_, ?_, ?_, ?_, ?_, ?_, ?_⟩
  · rw [hget1]; rfl
  · rw [hget2]; rfl
  · rw [hget1]; rfl
  · rw [hget1]; rfl
  · rw [hget2]; rfl
  · rw [hget2]; rfl
  · intro hscale
    rw [hget2]
    have h1 : (s.objects[j]).scale.1 = 1 := by rw [hscale]
    have h2 : (s.objects[j]).scale.2.1 = 1 := by rw [hscale]
    have h3 : (s.objects[j]).scale.2.2 = 1 := by rw [hscale]
    simp only [transform_apply_scale, h1, h2, h3]
    exact scaleVerts_cancel s.horizon_scale_factor hf0 (s.objects[j]).verts

/-- C3 witness: a unit-scale object with geometry [(1,2,3)] and factor 2 —
both runs finish, both leave reported scale 1, location and rotation
unchanged, and the geometry returns to [(1,2,3)]. -/
theorem claim3_witness :
    (scaleUpExecute sceneUnitScale).status = Status.FINISHED ∧
    (scaleDownExecute (scaleUpExecute sceneUnitScale).scene).status = Status.FINISHED ∧
    ((scaleUpExecute sceneUnitScale).scene.objects.getD 0 default).scale = (1, 1, 1) ∧
    ((scaleDownExecute (scaleUpExecute sceneUnitScale).scene).scene.objects.getD 0
        default).scale = (1, 1, 1) ∧
    ((scaleDownExecute (scaleUpExecute sceneUnitScale).scene).scene.objects.getD 0
        default).verts = [((1 : ℚ), (2 : ℚ), (3 : ℚ))] := by
  obtain ⟨h1, h2, h3, h4, _, _, _, _, h9⟩ := claim3_scaleRoundtrip sceneUnitScale 0
    (by decide) (by decide) (by decide)
  exact ⟨h1, h2, h3, h4, by rw [h9 (by decide)]; decide⟩

/-- C3 counterexample: an object entering Scale Up with reported scale 2
and geometry [(1,0,0)]: after Scale Up by 2 then Scale Down by 2 its
object-space geometry is [(2,0,0)] — the original geometry is *not*
restored (the initial scale got baked in), refuting the roundtrip claim
as stated. -/
theorem claim3_counterexample :
    (scenePreScaled.objects.getD 0 default).verts = [((1 : ℚ), 0, 0)] ∧
    (scaleUpExecute scenePreScaled).status = Status.FINISHED ∧
    (scaleDownExecute (scaleUpExecute scenePreScaled).scene).status = Status.FINISHED ∧
    ((scaleDownExecute (scaleUpExecute scenePreScaled).scene).scene.objects.getD 0
        default).verts = [((2 : ℚ), 0, 0)] ∧
    ((scaleDownExecute (scaleUpExecute scenePreScaled).scene).scene.objects.getD 0
        default).verts ≠ (scenePreScaled.objects.getD 0 default).verts := by
  have hfle : ¬ scenePreScaled.horizon_scale_factor ≤ 0 := by
    norm_num [scenePreScaled, sceneAllFinish]
  have hne : selectedIdxs scenePreScaled.objects ≠ [] := by decide
  obtain ⟨hstat1, hfac1, hchar1⟩ := scaleUpExecute_char scenePreScaled hfle hne
  have hseleq := scaleUpExecute_selection scenePreScaled hfle hne
  have hne2 : selectedIdxs ((scaleUpExecute scenePreScaled).scene.objects) ≠ [] := by
    rw [hseleq]; exact hne
  have hfle2 : ¬ (scaleUpExecute scenePreScaled).scene.horizon_scale_factor ≤ 0 := by
    rw [hfac1]; exact hfle
  obtain ⟨hstat2, hchar2⟩ :=
    scaleDownExecute_char (scaleUpExecute scenePreScaled).scene hfle2 hne2
  have hobj0 : scenePreScaled.objects[0]? =
      some { meshObj with verts := [(1, 0, 0)], scale := (2, 2, 2) } := rfl
  have hsel0 : ({ meshObj with verts := [(1, 0, 0)], scale := (2, 2, 2) } : Obj).selected
      = true := rfl
  have hget1? : ((scaleUpExecute scenePreScaled).scene.objects)[0]? =
      some (transform_apply_scale
        { ({ meshObj with verts := [(1, 0, 0)], scale := (2, 2, 2) } : Obj) with
          scale :=
            (({ meshObj with verts := [(1, 0, 0)], scale := (2, 2, 2) } : Obj).scale.1 *
               scenePreScaled.horizon_scale_factor,
             ({ meshObj with verts := [(1, 0, 0)], scale := (2, 2, 2) } : Obj).scale.2.1 *
               scenePreScaled.horizon_scale_factor,
             ({ meshObj with verts := [(1, 0, 0)], scale := (2, 2, 2) } : Obj).scale.2.2 *
               scenePreScaled.horizon_scale_factor) }) := by
    rw [hchar1 0, hobj0]
    simp [meshObj]
  have hget2? : ((scaleDownExecute (scaleUpExecute scenePreScaled).scene).scene.objects)[0]?
      = some (transform_apply_scale
        { (transform_apply_scale
            { ({ meshObj with verts := [(1, 0, 0)], scale := (2, 2, 2) } : Obj) with
              scale :=
                (({ meshObj with verts := [(1, 0, 0)], scale := (2, 2, 2) } : Obj).scale.1 *
                   scenePreScaled.horizon_scale_factor,
                 ({ meshObj with verts := [(1, 0, 0)], scale := (2, 2, 2) } : Obj).scale.2.1 *
                   scenePreScaled.horizon_scale_factor,
                 ({ meshObj with verts := [(1, 0, 0)], scale := (2, 2, 2) } : Obj).scale.2.2 *
                   scenePreScaled.horizon_scale_factor) }) with
          scale := (1 * (1 / scenePreScaled.horizon_scale_factor),
                    1 * (1 / scenePreScaled.horizon_scale_factor),
                    1 * (1 / scenePreScaled.horizon_scale_factor)) }) := by
    rw [hchar2 0, hget1?, hfac1]
    simp [meshObj, transform_apply_scale]
  have hget2 := getD_eq_of_getElem? _ 0 _ default hget2?
  have hv2 : ((scaleDownExecute (scaleUpExecute scenePreScaled).scene).scene.objects.getD 0
      default).verts = [((2 : ℚ), 0, 0)] := by
    rw [hget2]
    simp only [transform_apply_scale, scaleVerts, List.map_map]
    norm_num [scenePreScaled, sceneAllFinish, meshObj, Function.comp]
  refine ⟨by decide, hstat1, hstat2, hv2, ?_⟩
  rw [hv2]
  decide

end Horizon
